import Mathlib

/-!
# Verification of the awesimsoss ramp-simulation core

Shallow embedding of the per-pixel light-curve synthesis and ramp-noise
composition pipeline of the `awesimsoss` repository:

* `src/awesimsoss/generate_darks.py`
  (`add_dark_current`, `make_exposure`, `add_signal`, `non_linearity`,
  `add_pedestal`), and
* `src/AWESim_SOSS/sim2D/awesim.py`
  (`lambda_lightcurve`, `get_frame_times`).

Numpy arrays are modelled as total index functions (`ℕ → ℚ` per axis) with
the shapes passed alongside, mirroring the explicit shape checks of the
source.  All machine floats are modelled as exact rationals.  External
collaborators (the HXRG correlated-noise generator, the transit-light-curve
model, and the pseudo-random sampling routines of numpy) are modelled as
explicit oracle functions: a Poisson or Gaussian sampler becomes a function
from its call site's indices and rate to the drawn value, so that one run of
the program corresponds to one choice of oracle, and properties quantified
over all random draws become properties quantified over all oracles.
-/

namespace Awesimsoss

/-- A 2-D detector image: row, column ↦ value. -/
abbrev Mat := ℕ → ℕ → ℚ

/-- A 3-D data cube: frame, row, column ↦ value. -/
abbrev Cube := ℕ → ℕ → ℕ → ℚ

/-- A numpy 3-D shape `(frames, rows, cols)`. -/
abbrev Dims3 := ℕ × ℕ × ℕ

/-! ## `get_frame_times` (awesim.py, lines 673-714) -/

/-- The `frame_times` dictionary of `get_frame_times`:
`{'SUBSTRIP96':2.213, 'SUBSTRIP256':5.491, 'FULL':10.737}`.
The function only consults it after normalising the subarray name to one of
the three keys, so the final else branch is only ever reached for `"FULL"`. -/
def frame_times_lookup (s : String) : ℚ :=
  if s = "SUBSTRIP96" then 2213 / 1000
  else if s = "SUBSTRIP256" then 5491 / 1000
  else 10737 / 1000

/-- One integration's retained frame times:
`times = t + np.arange(nresets+ngrps)*ft` followed by `times[nresets:]`. -/
def gft_chunk (ft t : ℚ) (nresets ngrps : ℕ) : List ℚ :=
  ((List.range (nresets + ngrps)).map (fun i : ℕ => t + (i : ℚ) * ft)).drop nresets

/-- The integration loop of `get_frame_times`.  The source advances the
clock by `t = times[-1] + ft`; since `times[i] = t + i*ft` with
`nresets+ngrps` entries, that is `t + (nresets+ngrps)*ft`. -/
def gft_loop (ft : ℚ) (nresets ngrps : ℕ) : ℚ → ℕ → List ℚ
  | _, 0 => []
  | t, m + 1 =>
      gft_chunk ft t nresets ngrps ++
        gft_loop ft nresets ngrps (t + ((nresets + ngrps : ℕ) : ℚ) * ft) m

/-- Embedding of `get_frame_times(subarray, ngrps, nints, t0, nresets)`: an unknown
subarray name is silently replaced by `'SUBSTRIP256'`; reset frames are
generated but dropped from every integration's chunk. -/
def get_frame_times (subarray : String) (ngrps nints : ℕ) (t0 : ℚ)
    (nresets : ℕ) : List ℚ :=
  let sub := if subarray = "SUBSTRIP256" ∨ subarray = "SUBSTRIP96" ∨
      subarray = "FULL" then subarray else "SUBSTRIP256"
  gft_loop (frame_times_lookup sub) nresets ngrps t0 nints

/-! ## `add_dark_current` and `make_exposure` (generate_darks.py, lines 10-123) -/

/-- Oracle for `np.random.poisson` draws made after `np.random.seed(seed)`:
arguments are the seed, the index of the full-array draw since seeding, the
pixel, and the Poisson rate at that pixel; the result is the sampled count.
A fixed oracle makes the seeded sampler the deterministic function of its
seed that the numpy API guarantees. -/
abbrev PoisSeeded := ℤ → ℕ → ℕ → ℕ → ℚ → ℕ

/-- Oracle for `HXRGNoise.mknoise` (external collaborator, noise_simulation):
arguments are `pca0_file` (as an abstract identifier), `naxis1 = nrows`,
`naxis2 = ncols`, `naxis3 = ngrps`, then the parameters `make_exposure`
passes that are not literal constants: `bias_offset`, `dc_seed`,
`noise_seed`, `gain`.  (The fixed arguments `c_pink=9.6`, `u_pink=3.2`,
`acn=2.0`, `bias_amp=0`, `pca0_amp=0`, `rd_noise=12.95`, `pedestal=18.3`,
`dark_current=0` are constants of the call site and are folded into the
oracle.)  The result is the raw noise cube before reorientation. -/
abbrev MkNoise := ℕ → ℕ → ℕ → ℕ → ℚ → ℤ → ℤ → ℚ → Cube

/-- Embedding of `ramp = np.transpose(ramp,(0,2,1))` followed by `ramp[::,::-1,::-1]`:
the final cube of shape `(ngrps, nrows, ncols)` reads the raw cube at the
transposed, flipped indices. -/
def flip_ramp (nrows ncols : ℕ) (raw : Cube) : Cube :=
  fun g i j => raw g (ncols - 1 - j) (nrows - 1 - i)

/-- Embedding of `add_dark_current(ramp, seed, gain, darksignal)`: after reseeding with
`seed`, frame `n` receives the running total of the per-frame Poisson draws
of `darksignal`, each divided by `gain`. -/
def add_dark_current (ramp : Cube) (pois : PoisSeeded) (seed : ℤ)
    (gain : ℚ) (darksignal : Mat) : Cube :=
  fun n k l =>
    ramp n k l +
      ∑ m ∈ Finset.range (n + 1), ((pois seed m k l (darksignal k l) : ℚ) / gain)

/-- Embedding of `make_exposure(nints, ngrps, darksignal, gain, pca0_file, noise_seed,
dark_seed, offset)`.  `amb` is the stream of values `int(np.random.uniform()
* 4000000000.)` that the ambient (unseeded) global generator would produce,
consumed only when a seed is falsy; Python's `if not seed:` treats the
explicit integer seed `0` exactly like the default `None`.  Integration
`loop` calls the noise generator with `seed1 = noise_seed + 24*loop`, the
result is reoriented and given accumulated dark current (reseeded with
`dc_seed = dark_seed` each integration), and the frames are laid out
consecutively; untouched entries of the preallocated zero array stay `0`. -/
def make_exposure (nints ngrps : ℤ) (darksignal : Mat) (nrows ncols : ℕ)
    (gain : ℚ) (pca0_file : ℕ) (noise_seed dark_seed : ℤ) (offset : ℚ)
    (mknoise : MkNoise) (pois : PoisSeeded) (amb : ℕ → ℤ) : Option Cube :=
  if nints < 1 ∨ ngrps < 1 then none
  else
    let ns : ℤ := if noise_seed = 0 then 7 + amb 0 else noise_seed
    let ds : ℤ :=
      if dark_seed = 0 then 5 + amb (if noise_seed = 0 then 1 else 0)
      else dark_seed
    let G : ℕ := ngrps.toNat
    let bias_offset : ℚ := offset * gain
    let rampOf : ℕ → Cube := fun loop =>
      add_dark_current
        (flip_ramp nrows ncols
          (mknoise pca0_file nrows ncols G bias_offset ds (ns + 24 * (loop : ℤ)) gain))
        pois ds gain darksignal
    some (fun f k l =>
      if f < nints.toNat * G then rampOf (f / G) (f % G) k l else 0)

/-- Statement-side companion of `make_exposure`, following the spec's words:
"derive a deterministic seed offset from a base seed and the integration
index" — integration `i` uses seed `noise_seed + 24*i`, and the output is a
function of the explicit inputs only (no ambient random state). -/
def make_exposure_spec (nints ngrps : ℤ) (darksignal : Mat) (nrows ncols : ℕ)
    (gain : ℚ) (pca0_file : ℕ) (noise_seed dark_seed : ℤ) (offset : ℚ)
    (mknoise : MkNoise) (pois : PoisSeeded) : Option Cube :=
  if nints < 1 ∨ ngrps < 1 then none
  else
    let G : ℕ := ngrps.toNat
    some (fun f k l =>
      if f < nints.toNat * G then
        add_dark_current
          (flip_ramp nrows ncols
            (mknoise pca0_file nrows ncols G (offset * gain) dark_seed
              (noise_seed + 24 * ((f / G : ℕ) : ℤ)) gain))
          pois dark_seed gain darksignal (f % G) k l
      else 0)

/-! ## `add_signal` (generate_darks.py, lines 160-223) -/

/-- Oracles for the three kinds of random draws inside `add_signal`:
* `draw frame k l rate` — the full-array `np.random.poisson` sample taken
  once per frame (of `framesignal` in the photon-yield branch, of
  `np.abs(framesignal*pyimage+background)` otherwise);
* `extra frame k l count rate` — the value of
  `np.sum(np.random.poisson(rate, size=count))` drawn at pixel `(k,l)`;
* `bg frame k l rate` — the `np.random.poisson(background)` sample added
  at the end of the photon-yield branch.
Poisson samples are natural numbers, so every draw is non-negative. -/
structure SignalDraws where
  draw : ℕ → ℕ → ℕ → ℚ → ℕ
  extra : ℕ → ℕ → ℕ → ℕ → ℚ → ℕ
  bg : ℕ → ℕ → ℕ → ℚ → ℕ

/-- The row-major pixel order of the nested `for k ... for l ...` loops. -/
def pixelList (R C : ℕ) : List (ℕ × ℕ) :=
  (List.range R).flatMap (fun k => (List.range C).map (fun l => (k, l)))

/-- One step of the inner pixel loop of the photon-yield branch.  The state
is the pair of the Python variable `n` and the mutable array `newvalues`.
When `target[k,l] > 0` the source executes `n = int(newvalues[k,l])` —
overwriting the frame loop variable `n` — and then adds the sum of `n`
Poisson(`target[k,l]`) samples to `newvalues[k,l]`. -/
def pyStep (O : SignalDraws) (frame : ℕ) (target : Mat)
    (st : ℕ × (ℕ → ℕ → ℕ)) (px : ℕ × ℕ) : ℕ × (ℕ → ℕ → ℕ) :=
  if 0 < target px.1 px.2 then
    (st.2 px.1 px.2,
     fun a b =>
       if a = px.1 ∧ b = px.2 then
         st.2 px.1 px.2 + O.extra frame px.1 px.2 (st.2 px.1 px.2) (target px.1 px.2)
       else st.2 a b)
  else st

/-- The body of one iteration of the group loop of `add_signal`: returns the
final value of the Python variable `n` (the frame index, unless the
photon-yield branch shadowed it) together with the `newvalues` array. -/
def frameNewValues (O : SignalDraws) (signals : Cube) (pyimage : Mat)
    (bgmap : Mat) (frametime gain : ℚ) (R C : ℕ) (photon_yield : Bool)
    (frame : ℕ) : ℕ × (ℕ → ℕ → ℕ) :=
  if photon_yield then
    let fs : Mat := fun k l => signals frame k l * gain * frametime
    let init : ℕ → ℕ → ℕ := fun k l => O.draw frame k l (fs k l)
    let st := (pixelList R C).foldl
      (pyStep O frame (fun k l => pyimage k l - 1)) (frame, init)
    (st.1, fun k l => st.2 k l + O.bg frame k l (bgmap k l))
  else
    (frame, fun k l =>
      O.draw frame k l |signals frame k l * gain * frametime * pyimage k l + bgmap k l|)

/-- The group loop of `add_signal`, processing frames `0, …, t-1` onto the
zero-initialised `newcube`.  After each frame the source writes
`newcube[n] = newvalues` when `n == 0` and
`newcube[n] = newcube[n-1] + newvalues` otherwise, where `n` is whatever the
loop body left in the variable; an index `n` outside the cube raises
`IndexError`, modelled by `none`. -/
def addSignalLoop (O : SignalDraws) (signals : Cube) (pyimage : Mat)
    (bgmap : Mat) (frametime gain : ℚ) (F R C : ℕ) (photon_yield : Bool) :
    ℕ → Option Cube
  | 0 => some (fun _ _ _ => 0)
  | t + 1 =>
    match addSignalLoop O signals pyimage bgmap frametime gain F R C photon_yield t with
    | none => none
    | some nc =>
      let st := frameNewValues O signals pyimage bgmap frametime gain R C photon_yield t
      if st.1 < F then
        some (fun f k l =>
          if f = st.1 then
            if st.1 = 0 then (st.2 k l : ℚ) else nc (st.1 - 1) k l + (st.2 k l : ℚ)
          else nc f k l)
      else none

/-- Embedding of `add_signal(signals, cube, pyimage, frametime, gain, zodi, zodi_scale,
photon_yield)`; `dims1 = cube.shape`, `dims2 = signals.shape`, a mismatch
raises `ValueError`.  The background is `zodi*zodi_scale*frametime`, and the
final result is `cube + newcube/gain`. -/
def add_signal (dims1 dims2 : Dims3) (signals cube : Cube) (pyimage : Mat)
    (frametime gain : ℚ) (zodi : Mat) (zodi_scale : ℚ) (photon_yield : Bool)
    (O : SignalDraws) : Option Cube :=
  if dims1 ≠ dims2 then none
  else
    let bgmap : Mat := fun k l => zodi k l * zodi_scale * frametime
    (addSignalLoop O signals pyimage bgmap frametime gain
        dims1.1 dims1.2.1 dims1.2.2 photon_yield dims1.1).map
      (fun nc => fun f k l => cube f k l + nc f k l / gain)

/-! ## `non_linearity` (generate_darks.py, lines 226-262) -/

/-- Embedding of `non_linearity(cube, nonlinearity, offset)`; `dims1 =
nonlinearity.shape`, `dims2 = cube.shape`.  The source's shape check is
`if (dims1[1] != dims2[1]) | (dims1[1] != dims2[1]):` — the row comparison
written twice, the column counts never compared — reproduced verbatim.
Each frame is corrected, after subtracting and before re-adding the offset,
to `frame*(1 + Σ_n nonlinearity[n]*frame^(n+1))`; the source accumulates the
sum from `n = dims1[0]-1` down to `0`, which over exact rationals equals the
`Finset.range` sum. -/
def non_linearity (dims1 dims2 : Dims3) (cube nonlinearity : Cube)
    (offset : ℚ) : Option Cube :=
  if dims1.2.1 ≠ dims2.2.1 ∨ dims1.2.1 ≠ dims2.2.1 then none
  else
    some (fun k i j =>
      (cube k i j - offset) *
          (1 + ∑ n ∈ Finset.range dims1.1,
            nonlinearity n i j * (cube k i j - offset) ^ (n + 1)) +
        offset)

/-- Statement-side companion of `non_linearity`, following the spec's words:
"subtract the offset, then for every frame apply
`frame' = frame × (1 + Σ_n coeff[n] × frame^(n+1))`, then re-add the
offset". -/
def non_linearity_spec (N : ℕ) (cube nonlinearity : Cube) (offset : ℚ) : Cube :=
  fun k i j =>
    (cube k i j - offset) *
        (1 + ∑ n ∈ Finset.range N,
          nonlinearity n i j * (cube k i j - offset) ^ (n + 1)) +
      offset

/-! ## `add_pedestal` (generate_darks.py, lines 265-295) -/

/-- The effect of `.astype(np.uint32)` on a non-negative float: truncation
toward zero (which is `⌊x⌋` for `x ≥ 0`) reduced into the 32-bit range.
For negative or out-of-range inputs the C float-to-unsigned cast that numpy
performs is platform-dependent, so the theorems below restrict to
`0 ≤ x < 2^32`. -/
def uint32_trunc (x : ℚ) : ℕ := (⌊x⌋).toNat % 2 ^ 32

/-- Embedding of `add_pedestal(cube, pedestal, offset)`: `ped1 = pedestal + (offset-500)`
is added to each of the `F` frames of `cube` and the result is cast to
`uint32`; frames beyond `F` keep the `np.zeros_like` initialisation. -/
def add_pedestal (F : ℕ) (cube : Cube) (pedestal : Mat) (offset : ℚ) :
    ℕ → ℕ → ℕ → ℕ :=
  fun n k l =>
    if n < F then uint32_trunc (cube n k l + (pedestal k l + (offset - 500)))
    else 0

/-! ## `lambda_lightcurve` (awesim.py, lines 556-644) -/

/-- Embedding of `lambda_lightcurve(wavelength, response, distance, ld_coeffs,
ld_profile, star, planet, time, params, trace_radius, SNR, floor, extend)`.
External collaborators become oracle inputs:
* `star_wmin` is `np.nanmin(star[0].value)`;
* `flux0` is `np.interp(wavelength, star[0], star[1], left=0, right=0)`;
* `hasPlanet` is `not isinstance(planet, str)` and `lightcurve` is the
  batman transit-model flux multiplier evaluated on the time axis;
* `psfval` is the sample of `psf_position(distance, extend)` (random, via
  its wing synthesis);
* `znoise i` is the standard-normal draw behind
  `np.random.normal(loc, scale, size=len(time))` at time index `i`
  (`normal(loc, scale) = loc + scale*z`);
* `zfloor r` is the standard-normal draw behind the final
  `np.random.normal(loc=floor, scale=1, size=…)`, whose `r`-th entry lands
  on the `r`-th index (in increasing order) with `flux < floor`.
The final step is the source's
`flux[flux<floor] += np.random.normal(loc=floor, scale=1, size=…)`:
the qualifying entries are incremented by `floor + z`, not overwritten. -/
def lambda_lightcurve (wavelength response distance : ℚ) (star_wmin : ℚ)
    (flux0 : ℚ) (hasPlanet : Bool) (lightcurve : ℕ → ℚ) (psfval : ℚ)
    (T : ℕ) (znoise zfloor : ℕ → ℚ)
    (trace_radius SNR floor extend : ℚ) : List ℚ :=
  if trace_radius + extend < distance ∨ wavelength < star_wmin then
    (List.range T).map (fun i => |floor + znoise i|)
  else
    let flux1 : ℕ → ℚ := fun i => |flux0 + flux0 / SNR * znoise i|
    let flux2 : ℕ → ℚ := fun i =>
      if hasPlanet then flux1 i * lightcurve i else flux1 i
    let flux3 : ℕ → ℚ := fun i => flux2 i / response * psfval
    (List.range T).map (fun i =>
      if flux3 i < floor then
        flux3 i +
          (floor + zfloor ((List.range i).filter (fun j => flux3 j < floor)).length)
      else flux3 i)

/-- Poisson-draw oracle realising the variable-shadowing scenario in the
photon-yield branch of `add_signal`: at frame 0 the frame-signal draw is 1
and the background draw is 0; at frame 1 the frame-signal draw is 0 and the
background draw is 10.  All rates involved are positive, so every one of
these values is a possible Poisson sample. -/
def shadowDraws : SignalDraws where
  draw := fun n _ _ _ => if n = 0 then 1 else 0
  extra := fun _ _ _ _ _ => 0
  bg := fun n _ _ _ => if n = 0 then 0 else 10

/-- Noise-generator oracle whose output records the `noise_seed` it was
called with, exposing which seed `make_exposure` hands to each
integration. -/
def seedProbeMk : MkNoise := fun _ _ _ _ _ _ s _ => fun _ _ _ => (s : ℚ)

/-! ## Helper lemmas -/

theorem gft_chunk_length (ft t : ℚ) (r g : ℕ) : (gft_chunk ft t r g).length = g := by
  unfold gft_chunk
  rw [List.length_drop, List.length_map, List.length_range]
  omega

theorem gft_loop_length (ft : ℚ) (r g : ℕ) :
    ∀ (m : ℕ) (t : ℚ), (gft_loop ft r g t m).length = m * g := by
  intro m
  induction m with
  | zero => intro t; simp [gft_loop]
  | succ p ih =>
    intro t
    simp only [gft_loop, List.length_append, gft_chunk_length, ih]
    ring

/-- With the photon-yield branch off, an all-zero signal cube, and a zero
background map, every frame of `add_signal`'s accumulating loop stays
zero (using only that a Poisson sample of rate 0 is 0). -/
theorem addSignalLoop_zero (O : SignalDraws) (signals : Cube) (pyimage : Mat)
    (bgmap : Mat) (frametime gain : ℚ) (F R C : ℕ)
    (hsig : ∀ n k l, signals n k l = 0) (hbg : ∀ k l, bgmap k l = 0)
    (hO : ∀ n k l, O.draw n k l 0 = 0) :
    ∀ t, t ≤ F →
      addSignalLoop O signals pyimage bgmap frametime gain F R C false t
        = some (fun _ _ _ => (0 : ℚ)) := by
  intro t
  induction t with
  | zero => intro _; rfl
  | succ p ih =>
    intro h
    have hval : frameNewValues O signals pyimage bgmap frametime gain R C false p
        = (p, fun _ _ => 0) := by
      simp only [frameNewValues, Bool.false_eq_true, if_false]
      refine congrArg (Prod.mk p) ?_
      funext k l
      rw [hsig p k l, hbg k l]
      simpa using hO p k l
    simp only [addSignalLoop, ih (Nat.le_of_succ_le h), hval]
    rw [if_pos (Nat.lt_of_succ_le h)]
    refine congrArg some ?_
    funext f k l
    split_ifs <;> simp

/-- The concrete time axis of
`get_frame_times('SUBSTRIP256', ngrps=2, nints=3, t0=0, nresets=1)`:
with `ft = 5.491`, the retained frames are `[ft, 2ft, 4ft, 5ft, 7ft, 8ft]`. -/
theorem get_frame_times_256_list :
    get_frame_times "SUBSTRIP256" 2 3 0 1
      = [5491 / 1000, 5491 / 500, 5491 / 250, 5491 / 200, 38437 / 1000, 5491 / 125] := by
  norm_num [get_frame_times, gft_loop, gft_chunk, frame_times_lookup, List.range_succ,
    show ¬(("SUBSTRIP256" : String) = "SUBSTRIP96") from by decide]

/-! ## Claim theorems -/

/-- C5: for every supported subarray, `ngrps ≥ 1`, `nints ≥ 1`, start time
and reset count, `get_frame_times` returns exactly `nints × ngrps` values,
and `get_frame_times('SUBSTRIP256', ngrps=2, nints=3, t0=0, nresets=1)`
returns exactly 6 values whose first retained frames of consecutive
integrations (indices 0, 2, 4) are spaced by `(nresets+ngrps) × 5.491`. -/
theorem get_frame_times_length_and_spacing (subarray : String)
    (hs : subarray = "SUBSTRIP256" ∨ subarray = "SUBSTRIP96" ∨ subarray = "FULL")
    (ngrps nints nresets : ℕ) (hg : 1 ≤ ngrps) (hn : 1 ≤ nints) (t0 : ℚ) :
    (get_frame_times subarray ngrps nints t0 nresets).length = nints * ngrps ∧
      (get_frame_times "SUBSTRIP256" 2 3 0 1).length = 6 ∧
      (get_frame_times "SUBSTRIP256" 2 3 0 1).getD 2 0 -
          (get_frame_times "SUBSTRIP256" 2 3 0 1).getD 0 0
        = ((1 : ℚ) + 2) * (5491 / 1000) ∧
      (get_frame_times "SUBSTRIP256" 2 3 0 1).getD 4 0 -
          (get_frame_times "SUBSTRIP256" 2 3 0 1).getD 2 0
        = ((1 : ℚ) + 2) * (5491 / 1000) := by
  refine ⟨?_, by rw [get_frame_times_256_list]; rfl,
    by rw [get_frame_times_256_list]; norm_num [List.getD],
    by rw [get_frame_times_256_list]; norm_num [List.getD]⟩
  unfold get_frame_times
  exact gft_loop_length _ _ _ _ _

/-- Witness for C5 at `subarray = "SUBSTRIP96"`, `ngrps = 2`, `nints = 3`,
`nresets = 0`, `t0 = 0`. -/
theorem get_frame_times_length_witness :
    ((("SUBSTRIP96" : String) = "SUBSTRIP256" ∨ ("SUBSTRIP96" : String) = "SUBSTRIP96" ∨
        ("SUBSTRIP96" : String) = "FULL") ∧ 1 ≤ 2 ∧ 1 ≤ 3) ∧
      ((get_frame_times "SUBSTRIP96" 2 3 0 0).length = 3 * 2 ∧
        (get_frame_times "SUBSTRIP256" 2 3 0 1).length = 6 ∧
        (get_frame_times "SUBSTRIP256" 2 3 0 1).getD 2 0 -
            (get_frame_times "SUBSTRIP256" 2 3 0 1).getD 0 0
          = ((1 : ℚ) + 2) * (5491 / 1000) ∧
        (get_frame_times "SUBSTRIP256" 2 3 0 1).getD 4 0 -
            (get_frame_times "SUBSTRIP256" 2 3 0 1).getD 2 0
          = ((1 : ℚ) + 2) * (5491 / 1000)) :=
  ⟨⟨Or.inr (Or.inl rfl), by decide, by decide⟩,
    get_frame_times_length_and_spacing "SUBSTRIP96" (Or.inr (Or.inl rfl))
      2 3 0 (by decide) (by decide) 0⟩

/-- C10: for every subarray string outside the three supported names,
`get_frame_times` silently substitutes `'SUBSTRIP256'` and returns exactly
the time axis of the same call with `subarray = 'SUBSTRIP256'`. -/
theorem get_frame_times_unknown_subarray (s : String)
    (hs : ¬(s = "SUBSTRIP256" ∨ s = "SUBSTRIP96" ∨ s = "FULL"))
    (ngrps nints nresets : ℕ) (t0 : ℚ) :
    get_frame_times s ngrps nints t0 nresets
      = get_frame_times "SUBSTRIP256" ngrps nints t0 nresets := by
  unfold get_frame_times
  rw [if_neg hs, if_pos (Or.inl rfl)]

/-- Witness for C10 at the unknown subarray name `"JUNK"`. -/
theorem get_frame_times_unknown_subarray_witness :
    ¬(("JUNK" : String) = "SUBSTRIP256" ∨ ("JUNK" : String) = "SUBSTRIP96" ∨
        ("JUNK" : String) = "FULL") ∧
      get_frame_times "JUNK" 2 1 0 1 = get_frame_times "SUBSTRIP256" 2 1 0 1 :=
  ⟨by decide, get_frame_times_unknown_subarray "JUNK" (by decide) 2 1 1 0⟩

/-- C9: `make_exposure` with `nints < 1` or `ngrps < 1` returns `None`,
whatever the other arguments, the noise-generator oracle and the ambient
random state — a no-op, not an error. -/
theorem make_exposure_degenerate_none (nints ngrps : ℤ)
    (h : nints < 1 ∨ ngrps < 1) (darksignal : Mat) (nrows ncols : ℕ)
    (gain : ℚ) (pca0_file : ℕ) (noise_seed dark_seed : ℤ) (offset : ℚ)
    (mknoise : MkNoise) (pois : PoisSeeded) (amb : ℕ → ℤ) :
    make_exposure nints ngrps darksignal nrows ncols gain pca0_file
      noise_seed dark_seed offset mknoise pois amb = none := by
  unfold make_exposure
  exact if_pos h

/-- Witness for C9: `make_exposure(nints=0, ngrps=5, …)` is `None`. -/
theorem make_exposure_degenerate_witness :
    ((0 : ℤ) < 1 ∨ (5 : ℤ) < 1) ∧
      make_exposure 0 5 (fun _ _ => 0) 256 2048 1 0 7 5 500 seedProbeMk
        (fun _ _ _ _ _ => 0) (fun _ => 0) = none :=
  ⟨Or.inl (by decide),
    make_exposure_degenerate_none 0 5 (Or.inl (by decide)) (fun _ _ => 0)
      256 2048 1 0 7 5 500 seedProbeMk (fun _ _ _ _ _ => 0) (fun _ => 0)⟩

/-- C3: the shape check of `non_linearity` compares the row counts twice and
never the column counts, so a coefficient stack whose column count differs
from the cube's (here 1 versus 5, a combination numpy then silently
broadcasts) passes the check and the call proceeds instead of failing. -/
theorem non_linearity_misses_column_check :
    (((1, 2, 1) : Dims3).2.2 ≠ ((4, 2, 5) : Dims3).2.2) ∧
      (non_linearity (1, 2, 1) (4, 2, 5) (fun _ _ _ => 0) (fun _ _ _ => 0) 0).isSome
        = true := by
  decide

/-- C2: at a trace pixel whose post-PSF value 1 lies below the noise floor 2,
with the fresh Gaussian draw equal to 0, `lambda_lightcurve` returns
`1 + (2 + 0) = 3` — the pre-replacement value plus floor plus noise — where
the claimed replacement semantics would return `2 + 0 = 2`. -/
theorem lambda_lightcurve_adds_floor_to_low_values :
    lambda_lightcurve 1 1 0 0 1 false (fun _ => 1) 1 1 (fun _ => 0) (fun _ => 0)
        25 100 2 25 = [3] ∧ (3 : ℚ) ≠ 2 + 0 := by
  constructor
  · norm_num [lambda_lightcurve, List.range_succ]
  · norm_num

/-- C1: with the photon-yield branch enabled and a photon-yield map of 2
(so `target > 0`), the inner pixel loop of `add_signal` overwrites the frame
loop variable `n` with `int(newvalues[k,l])`; with the (all positive-rate,
hence possible) Poisson draws of `shadowDraws`, on a 2-frame 1×1 ramp with
zero dark cube, unit gain, unit frame time, unit signal and unit zodiacal
background, frame 0 of the returned cube holds 10 while frame 1 holds 1:
the output ramp decreases along the frame axis and frame 1 is not
frame 0 plus that frame's new electrons. -/
theorem add_signal_photon_yield_breaks_monotonicity :
    Option.map (fun c => (c 0 0 0, c 1 0 0))
        (add_signal (2, 1, 1) (2, 1, 1) (fun _ _ _ => 1) (fun _ _ _ => 0)
          (fun _ _ => 2) 1 1 (fun _ _ => 1) 1 true shadowDraws)
      = some (10, 1) ∧ (1 : ℚ) < 10 := by
  constructor
  · norm_num [add_signal, addSignalLoop, frameNewValues, pyStep, pixelList,
      shadowDraws, List.range_succ, Option.map]
  · norm_num

/-- C6: for a dark-ramp cube and an all-zero signal cube of the same shape,
`add_signal` with `zodi_scale = 0`, `photon_yield = False` and a
non-negative photon-yield map returns the dark-ramp cube unchanged: every
per-frame Poisson rate is `|0·gain·frametime·yield + 0| = 0`, a Poisson
sample of rate 0 is 0, and the accumulated counts stay 0. -/
theorem add_signal_zero_signal_id (dims1 dims2 : Dims3) (signals cube : Cube)
    (pyimage : Mat) (frametime gain : ℚ) (zodi : Mat) (O : SignalDraws)
    (hdims : dims1 = dims2) (hsig : ∀ n k l, signals n k l = 0)
    (hpy : ∀ k l, 0 ≤ pyimage k l) (hO : ∀ n k l, O.draw n k l 0 = 0) :
    add_signal dims1 dims2 signals cube pyimage frametime gain zodi 0 false O
      = some cube := by
  unfold add_signal
  rw [if_neg (by simp [hdims])]
  have hbg : ∀ k l : ℕ, zodi k l * 0 * frametime = 0 := by
    intro k l; ring
  show Option.map (fun nc f k l => cube f k l + nc f k l / gain)
      (addSignalLoop O signals pyimage (fun k l => zodi k l * 0 * frametime)
        frametime gain dims1.1 dims1.2.1 dims1.2.2 false dims1.1)
    = some cube
  rw [addSignalLoop_zero O signals pyimage
    (fun k l => zodi k l * 0 * frametime) frametime gain
    dims1.1 dims1.2.1 dims1.2.2 hsig hbg hO dims1.1 (le_refl _)]
  refine congrArg some ?_
  funext f k l
  simp

/-- Witness for C6 on a 1×1×1 geometry with dark cube constantly 5, unit
yield map, gain 2, and the all-zero draw oracle. -/
theorem add_signal_zero_signal_witness :
    (((1, 1, 1) : Dims3) = (1, 1, 1) ∧
        (∀ n k l : ℕ, (fun _ _ _ => (0 : ℚ)) n k l = 0) ∧
        (∀ k l : ℕ, (0 : ℚ) ≤ (fun _ _ => (1 : ℚ)) k l) ∧
        (∀ n k l : ℕ,
          SignalDraws.draw
            ⟨fun _ _ _ _ => 0, fun _ _ _ _ _ => 0, fun _ _ _ _ => 0⟩ n k l 0 = 0)) ∧
      add_signal (1, 1, 1) (1, 1, 1) (fun _ _ _ => 0) (fun _ _ _ => 5)
          (fun _ _ => 1) 1 2 (fun _ _ => 1) 0 false
          ⟨fun _ _ _ _ => 0, fun _ _ _ _ _ => 0, fun _ _ _ _ => 0⟩
        = some (fun _ _ _ => 5) :=
  ⟨⟨rfl, fun _ _ _ => rfl, fun _ _ => by norm_num, fun _ _ _ => rfl⟩,
    add_signal_zero_signal_id (1, 1, 1) (1, 1, 1) _ _ _ 1 2 _ _ rfl
      (fun _ _ _ => rfl) (fun _ _ => by norm_num) (fun _ _ _ => rfl)⟩

/-- C7: for ramp and coefficient stacks of matching spatial dimensions,
`non_linearity` applies exactly the spec's per-frame polynomial correction
`frame' = frame × (1 + Σ_n coeff[n] × frame^(n+1))` between offset
subtraction and re-addition, and an all-zero coefficient stack returns the
input cube unchanged. -/
theorem non_linearity_zero_coeffs_id (dims1 dims2 : Dims3) (cube nl : Cube)
    (offset : ℚ) (hrows : dims1.2.1 = dims2.2.1) (hcols : dims1.2.2 = dims2.2.2) :
    non_linearity dims1 dims2 cube nl offset
        = some (non_linearity_spec dims1.1 cube nl offset) ∧
      ((∀ n i j, nl n i j = 0) →
        non_linearity dims1 dims2 cube nl offset = some cube) := by
  have hcheck : ¬(dims1.2.1 ≠ dims2.2.1 ∨ dims1.2.1 ≠ dims2.2.1) := by
    simp [hrows]
  constructor
  · unfold non_linearity non_linearity_spec
    rw [if_neg hcheck]
  · intro hz
    unfold non_linearity
    rw [if_neg hcheck]
    refine congrArg some ?_
    funext k i j
    rw [Finset.sum_eq_zero (fun n _ => by rw [hz n i j]; ring)]
    ring

/-- Witness for C7: a 2-coefficient all-zero stack on a 3×4 geometry with
constant cube 7 and offset 500 returns the cube unchanged. -/
theorem non_linearity_zero_coeffs_witness :
    (((2, 3, 4) : Dims3).2.1 = ((5, 3, 4) : Dims3).2.1 ∧
        ((2, 3, 4) : Dims3).2.2 = ((5, 3, 4) : Dims3).2.2 ∧
        (∀ n i j : ℕ, (fun _ _ _ => (0 : ℚ)) n i j = 0)) ∧
      non_linearity (2, 3, 4) (5, 3, 4) (fun _ _ _ => 7) (fun _ _ _ => 0) 500
        = some (fun _ _ _ => 7) :=
  ⟨⟨rfl, rfl, fun _ _ _ => rfl⟩,
    (non_linearity_zero_coeffs_id (2, 3, 4) (5, 3, 4) _ _ 500 rfl rfl).2
      (fun _ _ _ => rfl)⟩

/-- C8: `add_pedestal(cube, pedestal, offset=500)` adds exactly `pedestal`
(since `offset-500 = 0`) to each frame and truncates to an unsigned
integer; subtracting `pedestal` from the result recovers the original value
up to that truncation: the recovered value is at most the original and
exceeds the original minus one (inputs kept in the representable range
`[0, 2^32)`, where the float-to-uint32 cast is truncation). -/
theorem add_pedestal_reversible (F : ℕ) (cube : Cube) (pedestal : Mat)
    (n k l : ℕ) (hn : n < F) (h0 : 0 ≤ cube n k l + pedestal k l)
    (h32 : cube n k l + pedestal k l < 2 ^ 32) :
    (add_pedestal F cube pedestal 500 n k l : ℚ) - pedestal k l ≤ cube n k l ∧
      cube n k l - 1 < (add_pedestal F cube pedestal 500 n k l : ℚ) - pedestal k l := by
  have hped : add_pedestal F cube pedestal 500 n k l
      = uint32_trunc (cube n k l + pedestal k l) := by
    unfold add_pedestal
    rw [if_pos hn]
    refine congrArg uint32_trunc ?_
    ring
  set x : ℚ := cube n k l + pedestal k l with hxdef
  have hfl0 : (0 : ℤ) ≤ ⌊x⌋ := Int.floor_nonneg.mpr h0
  have hfl32 : ⌊x⌋ < 2 ^ 32 := by
    exact_mod_cast lt_of_le_of_lt (Int.floor_le x) h32
  have htn : (⌊x⌋).toNat < 2 ^ 32 := by omega
  have hcast : ((uint32_trunc x : ℕ) : ℚ) = ((⌊x⌋ : ℤ) : ℚ) := by
    unfold uint32_trunc
    rw [Nat.mod_eq_of_lt htn]
    exact_mod_cast congrArg (fun z : ℤ => (z : ℚ)) (Int.toNat_of_nonneg hfl0)
  rw [hped, hcast]
  constructor
  · linarith [Int.floor_le x]
  · linarith [Int.sub_one_lt_floor x]

/-- Witness for C8: cube value `3/2`, pedestal 2 — the stored count is 3 and
subtracting the pedestal gives 1, within one unit below the original. -/
theorem add_pedestal_reversible_witness :
    (0 < 1 ∧ (0 : ℚ) ≤ 3 / 2 + 2 ∧ (3 / 2 : ℚ) + 2 < 2 ^ 32) ∧
      ((add_pedestal 1 (fun _ _ _ => 3 / 2) (fun _ _ => 2) 500 0 0 0 : ℚ) - 2 ≤ 3 / 2 ∧
        (3 / 2 : ℚ) - 1 <
          (add_pedestal 1 (fun _ _ _ => 3 / 2) (fun _ _ => 2) 500 0 0 0 : ℚ) - 2) :=
  ⟨⟨by norm_num, by norm_num, by norm_num⟩,
    add_pedestal_reversible 1 (fun _ _ _ => 3 / 2) (fun _ _ => 2) 0 0 0
      (by norm_num) (by norm_num) (by norm_num)⟩

/-- C4 (amended): for nonzero explicitly supplied `noise_seed` and
`dark_seed`, `make_exposure` is independent of the ambient random state —
two calls with identical inputs agree — and equals the deterministic
builder in which integration `i` calls the noise generator with seed
`noise_seed + 24·i`. -/
theorem make_exposure_deterministic_nonzero_seeds (nints ngrps : ℤ)
    (darksignal : Mat) (nrows ncols : ℕ) (gain : ℚ) (pca0_file : ℕ)
    (noise_seed dark_seed : ℤ) (offset : ℚ) (mknoise : MkNoise)
    (pois : PoisSeeded) (h1 : noise_seed ≠ 0) (h2 : dark_seed ≠ 0) :
    (∀ amb amb' : ℕ → ℤ,
        make_exposure nints ngrps darksignal nrows ncols gain pca0_file
            noise_seed dark_seed offset mknoise pois amb
          = make_exposure nints ngrps darksignal nrows ncols gain pca0_file
              noise_seed dark_seed offset mknoise pois amb') ∧
      (∀ amb : ℕ → ℤ,
        make_exposure nints ngrps darksignal nrows ncols gain pca0_file
            noise_seed dark_seed offset mknoise pois amb
          = make_exposure_spec nints ngrps darksignal nrows ncols gain pca0_file
              noise_seed dark_seed offset mknoise pois) := by
  have key : ∀ amb : ℕ → ℤ,
      make_exposure nints ngrps darksignal nrows ncols gain pca0_file
          noise_seed dark_seed offset mknoise pois amb
        = make_exposure_spec nints ngrps darksignal nrows ncols gain pca0_file
            noise_seed dark_seed offset mknoise pois := by
    intro amb
    unfold make_exposure make_exposure_spec
    by_cases hd : nints < 1 ∨ ngrps < 1
    · rw [if_pos hd, if_pos hd]
    · rw [if_neg hd, if_neg hd]
      simp only [if_neg h1, if_neg h2]
  exact ⟨fun amb amb' => (key amb).trans (key amb').symm, key⟩

/-- Witness for C4 at seeds 3 and 5 with the seed-probing noise oracle. -/
theorem make_exposure_deterministic_witness :
    ((3 : ℤ) ≠ 0 ∧ (5 : ℤ) ≠ 0) ∧
      make_exposure 2 2 (fun _ _ => 0) 1 1 1 0 3 5 500 seedProbeMk
          (fun _ _ _ _ _ => 0) (fun _ => 0)
        = make_exposure_spec 2 2 (fun _ _ => 0) 1 1 1 0 3 5 500 seedProbeMk
            (fun _ _ _ _ _ => 0) :=
  ⟨⟨by norm_num, by norm_num⟩,
    (make_exposure_deterministic_nonzero_seeds 2 2 (fun _ _ => 0) 1 1 1 0 3 5 500
        seedProbeMk (fun _ _ _ _ _ => 0) (by norm_num) (by norm_num)).2 (fun _ => 0)⟩

/-- C4 (counterexample): with the explicitly supplied integer seed
`noise_seed = 0` — which Python's `if not noise_seed:` treats as unset —
two calls of `make_exposure` identical in every argument but the ambient
random state return different ramp cubes, so determinism in the supplied
seeds fails for the seed value 0. -/
theorem make_exposure_zero_seed_nondeterministic :
    make_exposure 1 1 (fun _ _ => 0) 1 1 1 0 0 5 0 seedProbeMk
        (fun _ _ _ _ _ => 0) (fun _ => 0)
      ≠ make_exposure 1 1 (fun _ _ => 0) 1 1 1 0 0 5 0 seedProbeMk
        (fun _ _ _ _ _ => 0) (fun _ => 1) := by
  intro h
  have h2 := congrArg (fun o => Option.map (fun c => c 0 0 0) o) h
  norm_num [make_exposure, add_dark_current, flip_ramp, seedProbeMk, Option.map,
    Finset.sum_range_succ] at h2

end Awesimsoss
